import Mathlib

/-!
# Task-Management-API: the handlers of `main.go` over a model of the store

`main.go` is five gin handlers over one SQLite table `tasks`.  The handlers are
translated one by one; what they call outside the repository is modelled
explicitly:

* the table and its `sqlite_sequence` counter are a `Store`, and the five SQL
  statements of the source are functions on it;
* decoding of a request body (`ShouldBindJSON`) and SQLite's reading of the
  text parameter compared with the `INTEGER PRIMARY KEY` column are the two
  fields of an `Env`, over which every general theorem is quantified;
* a `Fault` names the store step that fails while a request is served, so
  that each `err != nil` branch of the source is reachable.
-/

namespace TaskAPI

/-! ## Data -/

/-- Go struct `Task` (main.go 14-20); Go `int` is 64 bits wide and every id the
store hands out lies in `1 .. MAX_ROWID`, so `Int` carries it without loss. -/
structure Task where
  ID : Int
  Title : String
  Description : String
  DueDate : String
  Status : String
deriving DecidableEq

/-- JSON values written by `context.JSON`. -/
inductive Json where
  | null
  | num (n : Int)
  | str (s : String)
  | arr (items : List Json)
  | obj (members : List (String × Json))

/-- Encoding of a `Task` under its struct tags
`id, title, description, due_date, status`. -/
def Task.toJson (t : Task) : Json :=
  Json.obj [("id", Json.num t.ID), ("title", Json.str t.Title),
    ("description", Json.str t.Description), ("due_date", Json.str t.DueDate),
    ("status", Json.str t.Status)]

/-- The one-member object `gin.H{key: msg}`. -/
def H (key msg : String) : Json := Json.obj [(key, Json.str msg)]

/-- A Go slice value: `none` is the nil slice of `var tasks []Task`. -/
abbrev Slice (α : Type) := Option (List α)

/-- Go `append(tasks, x)`: appending to the nil slice allocates. -/
def Slice.append {α : Type} : Slice α → α → Slice α
  | none, x => some [x]
  | some xs, x => some (xs ++ [x])

/-- Encoding of a `[]Task` by `encoding/json`: a nil slice is written as
`null`, any other slice as an array. -/
def marshalTasks : Slice Task → Json
  | none => Json.null
  | some ts => Json.arr (ts.map Task.toJson)

/-- HTTP response: status code and JSON body. -/
structure Response where
  code : Nat
  body : Json

/-- What the handlers receive from outside the repository. -/
structure Env where
  /-- Outcome of `context.ShouldBindJSON(&task)` on a request body: the decoded
  task, or `none` when decoding returns an error. -/
  bindJSON : String → Option Task
  /-- SQLite's reading of a text parameter that is compared with the
  `INTEGER PRIMARY KEY` column: the integer the text converts to under numeric
  affinity, or `none` when it converts to no integer (then no row compares
  equal). -/
  rowid : String → Option Int

/-- The store step that fails while one request is served (`none`: every step
succeeds).  A step that a handler does not perform cannot fail in it. -/
inductive Fault where
  | none
  | beginTx
  | prepare
  | exec
  | commit
  | query
  | scan
deriving DecidableEq

/-! ## The store -/

/-- One row of table `tasks` (main.go 58-64). -/
structure Row where
  id : Int
  title : String
  description : String
  due_date : String
  status : String
deriving DecidableEq

/-- The database: the rows of `tasks` in scan order and the `sqlite_sequence`
entry of the table (`0` while there is none). -/
structure Store where
  rows : List Row
  seq : Int
deriving DecidableEq

/-- Function `createTable` (main.go 55-70), `CREATE TABLE IF NOT EXISTS tasks (...)`: a new database
gets the empty table, an existing one is kept. -/
def createTable : Option Store → Store
  | none => { rows := [], seq := 0 }
  | some db => db

/-- Largest rowid SQLite can store. -/
def MAX_ROWID : Int := 9223372036854775807

/-- Largest rowid present in the table, if any. -/
def lastRowid : List Row → Option Int
  | [] => none
  | r :: rs =>
    match lastRowid rs with
    | none => some r.id
    | some m => some (max r.id m)

/-- Rowid chosen for an insert into an `AUTOINCREMENT` table: one more than the
largest rowid in the table (`1` for an empty table), raised to one more than the
recorded sequence value; the insert fails with `SQLITE_FULL` once the largest
rowid has been reached. -/
def newRowid (db : Store) : Option Int :=
  match lastRowid db.rows with
  | none => if db.seq = MAX_ROWID then none else some (max 1 (db.seq + 1))
  | some m =>
    if MAX_ROWID ≤ m ∨ db.seq = MAX_ROWID then none
    else some (max (m + 1) (db.seq + 1))

/-- Statement `INSERT INTO tasks (title, description, due_date, status) VALUES (?, ?, ?, ?)`
(main.go 90, 98) with `res.LastInsertId()`: the new rowid and the store with the
row added and the sequence advanced, or `none` when the statement fails. -/
def sqlInsert (db : Store) (title description due_date status : String) :
    Option (Int × Store) :=
  match newRowid db with
  | none => none
  | some v =>
    some (v, { rows := db.rows ++ [{ id := v, title := title, description := description,
                                      due_date := due_date, status := status }],
               seq := v })

/-- Whether the text parameter `id` compares equal to the key of row `r`. -/
def matchesId (env : Env) (id : String) (r : Row) : Bool :=
  decide (env.rowid id = some r.id)

/-- Query `SELECT * FROM tasks WHERE id = ?` (main.go 118): the first matching row. -/
def sqlSelectById (env : Env) (db : Store) (id : String) : Option Row :=
  db.rows.find? (matchesId env id)

/-- Statement `UPDATE tasks SET title=?, description=?, due_date=?, status=? WHERE id=?`
(main.go 143, 150). -/
def sqlUpdate (env : Env) (db : Store) (title description due_date status id : String) :
    Store :=
  { db with rows := db.rows.map fun r =>
      if matchesId env id r then
        { r with title := title, description := description, due_date := due_date,
                 status := status }
      else r }

/-- Statement `DELETE FROM tasks WHERE id = ?` (main.go 165). -/
def sqlDelete (env : Env) (db : Store) (id : String) : Store :=
  { db with rows := db.rows.filter fun r => !matchesId env id r }

/-- Call `row.Scan(&task.ID, &task.Title, &task.Description, &task.DueDate, &task.Status)`. -/
def Row.scan (r : Row) : Task :=
  { ID := r.id, Title := r.title, Description := r.description, DueDate := r.due_date,
    Status := r.status }

/-! ## Handlers -/

/-- Handler `createTask` (main.go 75-110).  `tx.Rollback()` on the failure
paths discards the work of the transaction; the result of `tx.Commit()` is not
looked at, so the 201 answer is written whether or not the commit took effect.
A commit that fails leaves nothing committed: the store stays as it was. -/
def createTask (env : Env) (f : Fault) (db : Store) (body : String) : Response × Store :=
  match env.bindJSON body with
  | none => (⟨400, H "error" "Invalid task data"⟩, db)
  | some task =>
    if f = Fault.beginTx then (⟨500, H "error" "Database transaction failed"⟩, db)
    else if f = Fault.prepare then
      (⟨500, H "error" "Database statement preparation failed"⟩, db)
    else
      match (if f = Fault.exec then none
             else sqlInsert db task.Title task.Description task.DueDate task.Status) with
      | none => (⟨500, H "error" "Database insertion failed"⟩, db)
      | some (taskID, tx) =>
        (⟨201, Task.toJson { task with ID := taskID }⟩,
          if f = Fault.commit then db else tx)

/-- Handler `getTask` (main.go 115-128): any error of `QueryRow`/`Scan`, be it
"no rows" or a failure of the store, is answered 404. -/
def getTask (env : Env) (f : Fault) (db : Store) (id : String) : Response × Store :=
  match (if f = Fault.query ∨ f = Fault.scan then none else sqlSelectById env db id) with
  | none => (⟨404, H "error" "Task not found"⟩, db)
  | some row => (⟨200, Task.toJson row.scan⟩, db)

/-- Handler `updateTask` (main.go 134-157): the decoded task is echoed. -/
def updateTask (env : Env) (f : Fault) (db : Store) (id body : String) : Response × Store :=
  match env.bindJSON body with
  | none => (⟨400, H "error" "Invalid task data"⟩, db)
  | some task =>
    if f = Fault.prepare then
      (⟨500, H "error" "Database statement preparation failed"⟩, db)
    else if f = Fault.exec then (⟨500, H "error" "Database update failed"⟩, db)
    else
      (⟨200, Task.toJson task⟩,
        sqlUpdate env db task.Title task.Description task.DueDate task.Status id)

/-- Handler `deleteTask` (main.go 162-172). -/
def deleteTask (env : Env) (f : Fault) (db : Store) (id : String) : Response × Store :=
  if f = Fault.exec then (⟨500, H "error" "Database delete failed"⟩, db)
  else (⟨200, H "message" "Task deleted successfully"⟩, sqlDelete env db id)

/-- The loop `for rows.Next() { ... rows.Scan ...; tasks = append(tasks, task) }`
(main.go 186-194): `none` when a scan fails. -/
def scanRows (f : Fault) : List Row → Slice Task → Option (Slice Task)
  | [], tasks => some tasks
  | r :: rest, tasks =>
    if f = Fault.scan then none else scanRows f rest (Slice.append tasks r.scan)

/-- Handler `listTasks` (main.go 177-197): `tasks` starts as the nil slice. -/
def listTasks (f : Fault) (db : Store) : Response × Store :=
  if f = Fault.query then (⟨500, H "error" "Database query failed"⟩, db)
  else
    match scanRows f db.rows none with
    | none => (⟨500, H "error" "Database scan failed"⟩, db)
    | some tasks => (⟨200, marshalTasks tasks⟩, db)

/-! ## Requests and runs -/

/-- The five routes registered in `main` (main.go 42-46). -/
inductive Request where
  | post (body : String)
  | get (id : String)
  | put (id body : String)
  | delete (id : String)
  | list

/-- Dispatch of one request to its handler. -/
def route (env : Env) (f : Fault) (db : Store) : Request → Response × Store
  | Request.post body => createTask env f db body
  | Request.get id => getTask env f db id
  | Request.put id body => updateTask env f db id body
  | Request.delete id => deleteTask env f db id
  | Request.list => listTasks f db

/-- Requests served one at a time: the log of requests with their responses,
and the final store. -/
def serve (env : Env) : Store → List (Fault × Request) → List (Request × Response) × Store
  | db, [] => ([], db)
  | db, (f, rq) :: rest =>
    ((rq, (route env f db rq).1) :: (serve env (route env f db rq).2 rest).1,
      (serve env (route env f db rq).2 rest).2)

/-- The `id` member a task object starts with. -/
def Json.taskId : Json → Option Int
  | Json.obj (("id", Json.num n) :: _) => some n
  | _ => none

/-- Number of elements of a JSON array; `null` and every other value has none. -/
def Json.count : Json → Nat
  | Json.arr items => items.length
  | _ => 0

/-- Ids returned by the POSTs of a log that were answered 201. -/
def postedIds : List (Request × Response) → List Int
  | [] => []
  | (Request.post _, rsp) :: rest =>
    if rsp.code = 201 then
      match rsp.body.taskId with
      | some n => n :: postedIds rest
      | none => postedIds rest
    else postedIds rest
  | _ :: rest => postedIds rest

/-- Number of POSTs of a log answered 201. -/
def countPosted : List (Request × Response) → Nat
  | [] => 0
  | (Request.post _, rsp) :: rest => (if rsp.code = 201 then 1 else 0) + countPosted rest
  | _ :: rest => countPosted rest

/-- Number of DELETEs of a log answered 200. -/
def countDeleted : List (Request × Response) → Nat
  | [] => 0
  | (Request.delete _, rsp) :: rest => (if rsp.code = 200 then 1 else 0) + countDeleted rest
  | _ :: rest => countDeleted rest

/-- Keys of the rows of the table, in scan order. -/
def Store.ids (db : Store) : List Int := db.rows.map Row.id

/-- The store is well keyed: keys are pairwise distinct and none exceeds the
recorded sequence value. -/
def Store.Keyed (db : Store) : Prop := db.ids.Nodup ∧ ∀ n ∈ db.ids, n ≤ db.seq

/-! ## A concrete environment for evaluation -/

/-- Value of a string of decimal digits. -/
def readDigits : List Char → Nat → Option Nat
  | [], acc => some acc
  | c :: cs, acc =>
    if '0' ≤ c ∧ c ≤ '9' then readDigits cs (10 * acc + (c.toNat - 48)) else none

/-- Reading of a plain decimal numeral, with an optional leading minus sign,
within the range of a rowid.  This is a fragment of SQLite's conversion: on
these texts SQLite yields the same integer.  Texts outside the fragment, some
of which SQLite converts as well (such as `1.0`), are left unconverted; the
function serves only to evaluate the handlers on examples. -/
def readDecimal (s : String) : Option Int :=
  match s.toList with
  | [] => none
  | '-' :: c :: cs =>
    (readDigits (c :: cs) 0).bind fun n =>
      if (n : Int) ≤ MAX_ROWID + 1 then some (-(n : Int)) else none
  | cs => (readDigits cs 0).bind fun n => if (n : Int) ≤ MAX_ROWID then some (n : Int) else none

/-- The task of the example of the specification; a body without an `id` member
decodes with `ID` zero. -/
def milk : Task :=
  { ID := 0, Title := "Buy milk", Description := "2%", DueDate := "2024-01-01",
    Status := "open" }

/-- Request bodies used in the evaluations, with the task each decodes to. -/
def sampleBodies : List (String × Task) :=
  [("milk", milk), ("milk99", { milk with ID := 99 }),
   ("done", { milk with ID := 7, Status := "done" })]

/-- Environment of the evaluations: the bodies of `sampleBodies` decode, any
other body is malformed; path ids are read as decimal numerals. -/
def sampleEnv : Env where
  bindJSON := fun body => (sampleBodies.find? fun p => p.1 == body).map Prod.snd
  rowid := readDecimal


/-! ## Lemmas and theorems -/

/-! ## Lemmas on the store -/

theorem matchesId_iff (env : Env) (id : String) (r : Row) :
    matchesId env id r = true ↔ env.rowid id = some r.id := by
  simp [matchesId]

theorem sqlSelectById_sqlDelete (env : Env) (db : Store) (id : String) :
    sqlSelectById env (sqlDelete env db id) id = none := by
  simp [sqlSelectById, sqlDelete, List.find?_eq_none]

theorem sqlSelectById_eq_none_iff (env : Env) (db : Store) (id : String) :
    sqlSelectById env db id = none ↔ ∀ r ∈ db.rows, env.rowid id ≠ some r.id := by
  simp [sqlSelectById, List.find?_eq_none, matchesId]

theorem sqlSelectById_isSome_iff (env : Env) (db : Store) (id : String) :
    (∃ row, sqlSelectById env db id = some row) ↔ ∃ r ∈ db.rows, env.rowid id = some r.id := by
  constructor
  · rintro ⟨row, h⟩
    have h1 := List.find?_some h
    have h2 := List.mem_of_find?_eq_some h
    exact ⟨row, h2, (matchesId_iff env id row).1 h1⟩
  · rintro ⟨r, hr, h⟩
    cases hs : sqlSelectById env db id with
    | none => exact absurd h ((sqlSelectById_eq_none_iff env db id).1 hs r hr)
    | some row => exact ⟨row, rfl⟩

/-- C3: on every store and for every path id, DELETE is answered 200 and the GET
that follows on the same path id is answered 404 with the error
body `Task not found`, whether or not a row matched. -/
theorem delete_then_get (env : Env) (db : Store) (id : String) (fg : Fault) :
    (deleteTask env Fault.none db id).1 = ⟨200, H "message" "Task deleted successfully"⟩ ∧
    getTask env fg (deleteTask env Fault.none db id).2 id =
      (⟨404, H "error" "Task not found"⟩, (deleteTask env Fault.none db id).2) := by
  constructor
  · simp [deleteTask]
  · simp only [deleteTask, getTask]
    simp [sqlSelectById_sqlDelete]

/-- C6: on every store and under every fault, a POST whose body does not decode
is answered 400 with the error body `Invalid task data` and returns the store
as it was, rows and sequence value alike. -/
theorem createTask_malformed (env : Env) (f : Fault) (db : Store) (body : String)
    (hbody : env.bindJSON body = none) :
    createTask env f db body = (⟨400, H "error" "Invalid task data"⟩, db) := by
  simp [createTask, hbody]

theorem createTask_malformed_witness :
    sampleEnv.bindJSON "not json" = none ∧
    createTask sampleEnv Fault.none (createTable none) "not json" =
      (⟨400, H "error" "Invalid task data"⟩, createTable none) :=
  ⟨by decide, createTask_malformed sampleEnv Fault.none (createTable none) "not json" (by decide)⟩

theorem getTask_store (env : Env) (f : Fault) (db : Store) (id : String) :
    (getTask env f db id).2 = db := by
  unfold getTask
  split <;> rfl

/-- C9: GET of a path id never changes the store; when the path id matches no
row, in particular when the store reads no integer from it, the answer is 404
with the error body `Task not found`; and when the query does not fail the answer
is 200 exactly when some row matches the path id. -/
theorem getTask_found_iff (env : Env) (f : Fault) (db : Store) (id : String) :
    (getTask env f db id).2 = db ∧
    ((∀ r ∈ db.rows, env.rowid id ≠ some r.id) →
      (getTask env f db id).1 = ⟨404, H "error" "Task not found"⟩) ∧
    (env.rowid id = none → (getTask env f db id).1 = ⟨404, H "error" "Task not found"⟩) ∧
    ((getTask env Fault.none db id).1.code = 200 ↔ ∃ r ∈ db.rows, env.rowid id = some r.id) := by
  have hnone : (∀ r ∈ db.rows, env.rowid id ≠ some r.id) →
      (getTask env f db id).1 = ⟨404, H "error" "Task not found"⟩ := by
    intro h
    have hs := (sqlSelectById_eq_none_iff env db id).2 h
    unfold getTask
    split_ifs <;> simp [hs]
  refine ⟨getTask_store env f db id, hnone, ?_, ?_⟩
  · intro h
    apply hnone
    intro r _
    simp [h]
  · rw [← sqlSelectById_isSome_iff]
    unfold getTask
    cases hs : sqlSelectById env db id with
    | none => simp
    | some row => simp

theorem getTask_found_iff_witness :
    sampleEnv.rowid "abc" = none ∧
    (getTask sampleEnv Fault.none
      { rows := [⟨1, "Buy milk", "2%", "2024-01-01", "open"⟩], seq := 1 } "abc").1 =
      ⟨404, H "error" "Task not found"⟩ :=
  ⟨by decide,
   (getTask_found_iff sampleEnv Fault.none
      { rows := [⟨1, "Buy milk", "2%", "2024-01-01", "open"⟩], seq := 1 } "abc").2.2.1
      (by decide)⟩

theorem find?_map_rewrite (p : Row → Bool) (g : Row → Row) (hg : ∀ r, p (g r) = p r)
    (rows : List Row) :
    (rows.map fun r => if p r then g r else r).find? p = (rows.find? p).map g := by
  induction rows with
  | nil => rfl
  | cons r rs ih =>
    by_cases h : p r = true
    · simp [List.find?, h, hg]
    · simp only [Bool.not_eq_true] at h
      simp [List.find?, h, ih]

theorem lastRowid_ge (rows : List Row) :
    ∀ r ∈ rows, ∃ m, lastRowid rows = some m ∧ r.id ≤ m := by
  induction rows with
  | nil => intro r hr; cases hr
  | cons a rs ih =>
    intro r hr
    rcases List.mem_cons.1 hr with rfl | hr
    · cases h : lastRowid rs with
      | none => exact ⟨r.id, by simp [lastRowid, h], le_refl _⟩
      | some m => exact ⟨max r.id m, by simp [lastRowid, h], le_max_left _ _⟩
    · obtain ⟨m, hm, hle⟩ := ih r hr
      exact ⟨max a.id m, by simp [lastRowid, hm], le_trans hle (le_max_right _ _)⟩

theorem newRowid_fresh (db : Store) (v : Int) (h : newRowid db = some v) :
    db.seq < v ∧ ∀ r ∈ db.rows, r.id < v := by
  unfold newRowid at h
  cases hl : lastRowid db.rows with
  | none =>
    rw [hl] at h
    simp only at h
    split_ifs at h
    injection h with h
    refine ⟨by omega, ?_⟩
    intro r hr
    obtain ⟨m, hm, _⟩ := lastRowid_ge db.rows r hr
    rw [hl] at hm
    cases hm
  | some m =>
    rw [hl] at h
    simp only at h
    split_ifs at h
    injection h with h
    refine ⟨by omega, ?_⟩
    intro r hr
    obtain ⟨m', hm, hle⟩ := lastRowid_ge db.rows r hr
    rw [hl] at hm
    injection hm with hm
    omega

theorem sqlInsert_spec (db db1 : Store) (a b c d : String) (v : Int)
    (h : sqlInsert db a b c d = some (v, db1)) :
    newRowid db = some v ∧
    db1 = { rows := db.rows ++ [{ id := v, title := a, description := b, due_date := c,
                                   status := d }], seq := v } := by
  unfold sqlInsert at h
  cases hn : newRowid db with
  | none => rw [hn] at h; cases h
  | some w =>
    rw [hn] at h
    simp only [Option.some.injEq, Prod.mk.injEq] at h
    obtain ⟨rfl, rfl⟩ := h
    exact ⟨rfl, rfl⟩

theorem Task.toJson_inj (s t : Task) (h : Task.toJson s = Task.toJson t) : s = t := by
  cases s; cases t
  simp [Task.toJson] at h
  simp [h]

/-- What a 201 answer of `createTask` says about the run. -/
theorem createTask_created (env : Env) (f : Fault) (db : Store) (body : String) (t : Task)
    (h : (createTask env f db body).1 = ⟨201, Task.toJson t⟩) :
    ∃ p, env.bindJSON body = some p ∧ newRowid db = some t.ID ∧
      t = { p with ID := t.ID } ∧
      (createTask env f db body).2 =
        if f = Fault.commit then db
        else { rows := db.rows ++ [{ id := t.ID, title := p.Title, description := p.Description,
                                       due_date := p.DueDate, status := p.Status }],
               seq := t.ID } := by
  unfold createTask at h ⊢
  cases hb : env.bindJSON body with
  | none => rw [hb] at h; simp at h
  | some p =>
    rw [hb] at h
    simp only at h ⊢
    by_cases h1 : f = Fault.beginTx
    · simp [h1] at h
    by_cases h2 : f = Fault.prepare
    · simp [h2] at h
    by_cases h3 : f = Fault.exec
    · simp [h3] at h
    simp only [h1, h2, h3, if_false] at h ⊢
    cases hi : sqlInsert db p.Title p.Description p.DueDate p.Status with
    | none => rw [hi] at h; simp at h
    | some res =>
      obtain ⟨v, tx⟩ := res
      rw [hi] at h
      simp only [Response.mk.injEq, true_and] at h
      have ht := Task.toJson_inj _ _ h
      obtain ⟨hn, htx⟩ := sqlInsert_spec _ _ _ _ _ _ _ hi
      subst ht
      exact ⟨p, rfl, hn, rfl, by simp [htx]⟩

/-- Round trip of a POST whose commit took effect: on every store, when a POST
of a body that decodes to payload `p` is answered 201 with task `t` and its
commit did not fail, the GET that follows on a path the store reads as `t.ID`
is answered 200 with the task whose id is `t.ID` and whose title, description,
due date and status are those of `p`. -/
theorem post_then_get (env : Env) (f : Fault) (db : Store) (body id : String) (p t : Task)
    (hbody : env.bindJSON body = some p) (hf : f ≠ Fault.commit)
    (hpost : (createTask env f db body).1 = ⟨201, Task.toJson t⟩)
    (hid : env.rowid id = some t.ID) :
    getTask env Fault.none (createTask env f db body).2 id =
      (⟨200, Task.toJson { ID := t.ID, Title := p.Title, Description := p.Description,
                           DueDate := p.DueDate, Status := p.Status }⟩,
        (createTask env f db body).2) := by
  obtain ⟨p', hb', hn, _, hst⟩ := createTask_created env f db body t hpost
  rw [hbody] at hb'
  injection hb' with hb'
  subst hb'
  rw [hst]
  simp only [hf, if_false]
  obtain ⟨_, hfresh⟩ := newRowid_fresh db t.ID hn
  have hnone : List.find? (matchesId env id) db.rows = none := by
    rw [List.find?_eq_none]
    intro r hr
    have := hfresh r hr
    simp only [matchesId, hid, Option.some.injEq, decide_eq_true_eq]
    omega
  simp [getTask, sqlSelectById, List.find?_append, hnone, matchesId, hid, Row.scan]

theorem post_then_get_witness :
    sampleEnv.bindJSON "milk99" = some { milk with ID := 99 } ∧
    getTask sampleEnv Fault.none
        (createTask sampleEnv Fault.none (createTable none) "milk99").2 "1" =
      (⟨200, Task.toJson { milk with ID := 1 }⟩,
        (createTask sampleEnv Fault.none (createTable none) "milk99").2) :=
  ⟨by decide,
   post_then_get sampleEnv Fault.none (createTable none) "milk99" "1"
     { milk with ID := 99 } { milk with ID := 1 } (by decide) (by decide) rfl (by decide)⟩


/-- C2: on every store holding a row with key `i`, after a PUT of a body that
decodes to `b` on a path the store reads as `i` (answered 200), the GET on the
same path is answered 200 with title, description, due date and status of `b`
and with id `i`, whatever id `b` carries. -/
theorem put_then_get (env : Env) (db : Store) (id body : String) (b : Task) (i : Int)
    (hbody : env.bindJSON body = some b) (hid : env.rowid id = some i)
    (hrow : ∃ r ∈ db.rows, r.id = i) :
    (updateTask env Fault.none db id body).1.code = 200 ∧
    getTask env Fault.none (updateTask env Fault.none db id body).2 id =
      (⟨200, Task.toJson { ID := i, Title := b.Title, Description := b.Description,
                           DueDate := b.DueDate, Status := b.Status }⟩,
        (updateTask env Fault.none db id body).2) := by
  obtain ⟨r, hr, hri⟩ := hrow
  have hsome : ∃ row, sqlSelectById env db id = some row :=
    (sqlSelectById_isSome_iff env db id).2 ⟨r, hr, by rw [hid, hri]⟩
  obtain ⟨row, hrow⟩ := hsome
  have hm : matchesId env id row = true := List.find?_some hrow
  have hrid : row.id = i := by
    have := (matchesId_iff env id row).1 hm
    rw [hid] at this
    injection this with this
    exact this.symm
  have hfind : sqlSelectById env
      (sqlUpdate env db b.Title b.Description b.DueDate b.Status id) id =
      some { row with title := b.Title, description := b.Description,
                      due_date := b.DueDate, status := b.Status } := by
    unfold sqlSelectById at hrow ⊢
    unfold sqlUpdate
    simp only
    rw [find?_map_rewrite (matchesId env id)
      (fun r => { r with title := b.Title, description := b.Description,
                         due_date := b.DueDate, status := b.Status })
      (fun r => rfl), hrow]
    rfl
  simp [updateTask, hbody, getTask, hfind, Row.scan, hrid]

theorem put_then_get_witness :
    (updateTask sampleEnv Fault.none
        { rows := [⟨1, "Buy milk", "2%", "2024-01-01", "open"⟩], seq := 1 } "1" "done").1.code
        = 200 ∧
    getTask sampleEnv Fault.none
        (updateTask sampleEnv Fault.none
          { rows := [⟨1, "Buy milk", "2%", "2024-01-01", "open"⟩], seq := 1 } "1" "done").2 "1" =
      (⟨200, Task.toJson { milk with ID := 1, Status := "done" }⟩,
        (updateTask sampleEnv Fault.none
          { rows := [⟨1, "Buy milk", "2%", "2024-01-01", "open"⟩], seq := 1 } "1" "done").2) :=
  put_then_get sampleEnv { rows := [⟨1, "Buy milk", "2%", "2024-01-01", "open"⟩], seq := 1 }
    "1" "done" { milk with ID := 7, Status := "done" } 1 (by decide) (by decide)
    ⟨⟨1, "Buy milk", "2%", "2024-01-01", "open"⟩, by simp, rfl⟩

/-- C10: a PUT with a well-formed body keeps the list of keys and the sequence
value, keeps every row whose key is not the one read from the path id where
it was and as it was, leaves the whole store as it was when no row matches,
and when no store step fails is answered 200 with the decoded body itself,
id included. -/
theorem updateTask_frame (env : Env) (f : Fault) (db : Store) (id body : String) (b : Task)
    (hbody : env.bindJSON body = some b) :
    (updateTask env f db id body).2.rows.map Row.id = db.rows.map Row.id ∧
    (updateTask env f db id body).2.seq = db.seq ∧
    (∀ (n : Nat) (row : Row), db.rows[n]? = some row → env.rowid id ≠ some row.id →
      (updateTask env f db id body).2.rows[n]? = some row) ∧
    ((∀ row ∈ db.rows, env.rowid id ≠ some row.id) → (updateTask env f db id body).2 = db) ∧
    (updateTask env Fault.none db id body).1 = ⟨200, Task.toJson b⟩ := by
  have key : (updateTask env f db id body).2 = db ∨
      (updateTask env f db id body).2 =
        sqlUpdate env db b.Title b.Description b.DueDate b.Status id := by
    unfold updateTask
    rw [hbody]
    simp only
    split_ifs
    · exact Or.inl rfl
    · exact Or.inl rfl
    · exact Or.inr rfl
  have hids : (sqlUpdate env db b.Title b.Description b.DueDate b.Status id).rows.map Row.id
      = db.rows.map Row.id := by
    simp only [sqlUpdate, List.map_map]
    apply List.map_congr_left
    intro r _
    simp only [Function.comp]
    split_ifs <;> rfl
  have hget : ∀ (n : Nat) (row : Row), db.rows[n]? = some row → env.rowid id ≠ some row.id →
      (sqlUpdate env db b.Title b.Description b.DueDate b.Status id).rows[n]? = some row := by
    intro n row hn hne
    simp only [sqlUpdate, List.getElem?_map, hn, Option.map_some']
    have : matchesId env id row = false := by simp [matchesId, hne]
    simp [this]
  have hsame : (∀ row ∈ db.rows, env.rowid id ≠ some row.id) →
      sqlUpdate env db b.Title b.Description b.DueDate b.Status id = db := by
    intro h
    unfold sqlUpdate
    have : (db.rows.map fun r =>
        if matchesId env id r then
          { r with title := b.Title, description := b.Description, due_date := b.DueDate,
                   status := b.Status }
        else r) = db.rows := by
      conv_rhs => rw [← List.map_id db.rows]
      apply List.map_congr_left
      intro r hr
      have : matchesId env id r = false := by simp [matchesId, h r hr]
      simp [this]
    rw [this]
  refine ⟨?_, ?_, ?_, ?_, ?_⟩
  · rcases key with h | h <;> rw [h]
    exact hids
  · rcases key with h | h <;> rw [h]
    rfl
  · intro n row hn hne
    rcases key with h | h <;> rw [h]
    · exact hn
    · exact hget n row hn hne
  · intro hall
    rcases key with h | h <;> rw [h]
    exact hsame hall
  · simp [updateTask, hbody]

theorem updateTask_frame_witness :
    (updateTask sampleEnv Fault.none (createTable none) "5" "done").2 = createTable none ∧
    (updateTask sampleEnv Fault.none (createTable none) "5" "done").1 =
      ⟨200, Task.toJson { milk with ID := 7, Status := "done" }⟩ :=
  ⟨(updateTask_frame sampleEnv Fault.none (createTable none) "5" "done"
      { milk with ID := 7, Status := "done" } (by decide)).2.2.2.1 (by simp [createTable]),
   (updateTask_frame sampleEnv Fault.none (createTable none) "5" "done"
      { milk with ID := 7, Status := "done" } (by decide)).2.2.2.2⟩

/-- C5, evaluated: on the empty table GET /tasks is answered 200 with body
`null` (the nil slice), which is not the empty array. -/
theorem listTasks_empty_is_null :
    (listTasks Fault.none (createTable none)).1.code = 200 ∧
    (listTasks Fault.none (createTable none)).1.body = Json.null ∧
    (listTasks Fault.none (createTable none)).1.body ≠ Json.arr [] := by
  refine ⟨rfl, rfl, ?_⟩
  intro h
  cases h

/-- C1, evaluated: on a table holding row 1, a POST of a well-formed body whose
commit fails is answered 201 with id 2, and the GET of id 2 that follows
immediately is answered 404, not 200 with the task. -/
theorem post_commit_fault_then_get :
    sampleEnv.bindJSON "done" = some { milk with ID := 7, Status := "done" } ∧
    (createTask sampleEnv Fault.commit
      { rows := [⟨1, "Buy milk", "2%", "2024-01-01", "open"⟩], seq := 1 } "done").1 =
      ⟨201, Task.toJson { milk with ID := 2, Status := "done" }⟩ ∧
    sampleEnv.rowid "2" = some 2 ∧
    getTask sampleEnv Fault.none
      (createTask sampleEnv Fault.commit
        { rows := [⟨1, "Buy milk", "2%", "2024-01-01", "open"⟩], seq := 1 } "done").2 "2" =
      (⟨404, H "error" "Task not found"⟩,
        { rows := [⟨1, "Buy milk", "2%", "2024-01-01", "open"⟩], seq := 1 }) :=
  ⟨rfl, rfl, rfl, rfl⟩

/-- A POST with a well-formed body in which beginning the transaction,
preparing the statement or executing the insert fails is answered 500 and
returns the store as it was. -/
theorem createTask_store_fault (env : Env) (f : Fault) (db : Store) (body : String) (p : Task)
    (hbody : env.bindJSON body = some p)
    (hf : f = Fault.beginTx ∨ f = Fault.prepare ∨ f = Fault.exec) :
    (createTask env f db body).1.code = 500 ∧ (createTask env f db body).2 = db := by
  rcases hf with rfl | rfl | rfl <;> simp [createTask, hbody]

/-- C7, evaluated: on the empty table a POST of a well-formed body whose commit
fails is answered 201 with id 1, not 500; nothing was stored, and the GET of
id 1 that follows is answered 404. -/
theorem createTask_commit_fault :
    (createTask sampleEnv Fault.commit (createTable none) "milk").1 =
      ⟨201, Task.toJson { milk with ID := 1 }⟩ ∧
    (createTask sampleEnv Fault.commit (createTable none) "milk").2 = createTable none ∧
    (getTask sampleEnv Fault.none
      (createTask sampleEnv Fault.commit (createTable none) "milk").2 "1").1 =
      ⟨404, H "error" "Task not found"⟩ :=
  ⟨rfl, rfl, rfl⟩

/-- C4, evaluated: from the empty table, after a POST answered 201 and a DELETE
of the absent id 5 answered 200, GET /tasks returns one task, while one
POST answered 201 minus one DELETE answered 200 is zero. -/
theorem delete_missing_counts :
    countPosted (serve sampleEnv (createTable none)
      [(Fault.none, Request.post "milk"), (Fault.none, Request.delete "5")]).1 = 1 ∧
    countDeleted (serve sampleEnv (createTable none)
      [(Fault.none, Request.post "milk"), (Fault.none, Request.delete "5")]).1 = 1 ∧
    (listTasks Fault.none (serve sampleEnv (createTable none)
      [(Fault.none, Request.post "milk"), (Fault.none, Request.delete "5")]).2).1 =
      ⟨200, Json.arr [Task.toJson { milk with ID := 1 }]⟩ ∧
    (listTasks Fault.none (serve sampleEnv (createTable none)
      [(Fault.none, Request.post "milk"), (Fault.none, Request.delete "5")]).2).1.body.count
      = 1 :=
  ⟨rfl, rfl, rfl, rfl⟩

theorem sqlUpdate_ids (env : Env) (db : Store) (a b c d id : String) :
    (sqlUpdate env db a b c d id).ids = db.ids := by
  simp only [Store.ids, sqlUpdate, List.map_map]
  apply List.map_congr_left
  intro r _
  simp only [Function.comp]
  split_ifs <;> rfl

theorem sqlDelete_ids_sublist (env : Env) (db : Store) (id : String) :
    List.Sublist (sqlDelete env db id).ids db.ids := by
  simp only [Store.ids, sqlDelete]
  exact List.Sublist.map _ (List.filter_sublist _)

theorem Json.taskId_toJson (t : Task) : (Task.toJson t).taskId = some t.ID := by
  simp [Task.toJson, Json.taskId]

theorem postedIds_cons (x : Request × Response) (rest : List (Request × Response)) :
    postedIds (x :: rest) = postedIds [x] ++ postedIds rest := by
  obtain ⟨rq, rsp⟩ := x
  cases rq <;> simp only [postedIds, List.nil_append]
  split_ifs
  · cases rsp.body.taskId <;> simp
  · simp

/-- Either a POST leaves the store as it was and, unless its commit failed,
is not answered 201; or it inserted a row under the fresh rowid and answered
201 with it. -/
theorem createTask_cases (env : Env) (f : Fault) (db : Store) (body : String) :
    ((createTask env f db body).2 = db ∧
      (f ≠ Fault.commit → (createTask env f db body).1.code ≠ 201)) ∨
    ∃ (p : Task) (v : Int), newRowid db = some v ∧ f ≠ Fault.commit ∧
      (createTask env f db body).1 = ⟨201, Task.toJson { p with ID := v }⟩ ∧
      (createTask env f db body).2 =
        { rows := db.rows ++ [{ id := v, title := p.Title, description := p.Description,
                                 due_date := p.DueDate, status := p.Status }],
          seq := v } := by
  unfold createTask
  cases hb : env.bindJSON body with
  | none => left; simp
  | some p =>
    simp only
    by_cases h1 : f = Fault.beginTx
    · left; simp [h1]
    by_cases h2 : f = Fault.prepare
    · left; simp [h2]
    by_cases h3 : f = Fault.exec
    · left; simp [h3]
    simp only [h1, h2, h3, if_false]
    cases hi : sqlInsert db p.Title p.Description p.DueDate p.Status with
    | none => left; simp
    | some res =>
      obtain ⟨v, tx⟩ := res
      obtain ⟨hn, htx⟩ := sqlInsert_spec _ _ _ _ _ _ _ hi
      by_cases h4 : f = Fault.commit
      · left; simp [h4]
      · right
        exact ⟨p, v, hn, h4, rfl, by simp [h4, htx]⟩

theorem route_keyed (env : Env) (f : Fault) (db : Store) (rq : Request) (h : db.Keyed) :
    (route env f db rq).2.Keyed ∧ db.seq ≤ (route env f db rq).2.seq ∧
    (f ≠ Fault.commit → ∀ n ∈ postedIds [(rq, (route env f db rq).1)],
      db.seq < n ∧ n ≤ (route env f db rq).2.seq) := by
  obtain ⟨hnd, hle⟩ := h
  cases rq with
  | post body =>
    simp only [route]
    rcases createTask_cases env f db body with ⟨hst, hcode⟩ | ⟨p, v, hn, hf, hrsp, hst⟩
    · rw [hst]
      refine ⟨⟨hnd, hle⟩, le_refl _, ?_⟩
      intro hf n hn
      simp [postedIds, hcode hf] at hn
    · obtain ⟨hseq, hfresh⟩ := newRowid_fresh db v hn
      rw [hst, hrsp]
      refine ⟨⟨?_, ?_⟩, ?_, ?_⟩
      · simp only [Store.ids, List.map_append, List.map_cons, List.map_nil]
        rw [List.nodup_append]
        refine ⟨hnd, List.nodup_singleton _, ?_⟩
        intro a ha hb
        simp only [List.mem_singleton] at hb
        subst hb
        obtain ⟨r, hr, rfl⟩ := List.mem_map.1 ha
        exact absurd (hfresh r hr) (lt_irrefl _)
      · intro n hmem
        simp only [Store.ids, List.map_append, List.map_cons, List.map_nil, List.mem_append,
          List.mem_singleton] at hmem
        rcases hmem with hmem | rfl
        · have := hle n hmem
          simp only
          omega
        · exact le_refl _
      · simp only
        omega
      · intro _ n hmem
        simp [postedIds, Json.taskId_toJson] at hmem
        subst hmem
        exact ⟨hseq, le_refl _⟩
  | get id =>
    have : (getTask env f db id).2 = db := getTask_store env f db id
    simp only [route, this]
    exact ⟨⟨hnd, hle⟩, le_refl _, by intro _ n hn; simp [postedIds] at hn⟩
  | put id body =>
    simp only [route]
    refine ⟨?_, ?_, by intro _ n hn; simp [postedIds] at hn⟩
    · unfold updateTask
      split
      · exact ⟨hnd, hle⟩
      · split_ifs
        · exact ⟨hnd, hle⟩
        · exact ⟨hnd, hle⟩
        · simp only [Store.Keyed, sqlUpdate_ids]
          exact ⟨hnd, hle⟩
    · unfold updateTask
      split
      · exact le_refl _
      · split_ifs <;> exact le_refl _
  | delete id =>
    simp only [route]
    refine ⟨?_, ?_, by intro _ n hn; simp [postedIds] at hn⟩
    · unfold deleteTask
      split_ifs
      · exact ⟨hnd, hle⟩
      · exact ⟨hnd.sublist (sqlDelete_ids_sublist env db id),
          fun n hn => hle n ((sqlDelete_ids_sublist env db id).subset hn)⟩
    · unfold deleteTask
      split_ifs <;> exact le_refl _
  | list =>
    have : (listTasks f db).2 = db := by
      unfold listTasks
      split_ifs
      · rfl
      · split <;> rfl
    simp only [route, this]
    exact ⟨⟨hnd, hle⟩, le_refl _, by intro _ n hn; simp [postedIds] at hn⟩

theorem serve_keyed (env : Env) (tr : List (Fault × Request)) :
    ∀ db : Store, db.Keyed →
      (serve env db tr).2.Keyed ∧ db.seq ≤ (serve env db tr).2.seq ∧
      ((∀ x ∈ tr, x.1 ≠ Fault.commit) →
        ∀ n ∈ postedIds (serve env db tr).1, db.seq < n ∧ n ≤ (serve env db tr).2.seq) := by
  induction tr with
  | nil =>
    intro db h
    exact ⟨h, le_refl _, by intro _ n hn; simp [serve, postedIds] at hn⟩
  | cons x rest ih =>
    intro db h
    obtain ⟨f, rq⟩ := x
    obtain ⟨hk1, hm1, hp1⟩ := route_keyed env f db rq h
    obtain ⟨hk2, hm2, hp2⟩ := ih (route env f db rq).2 hk1
    simp only [serve]
    refine ⟨hk2, le_trans hm1 hm2, ?_⟩
    intro hall n hn
    rw [postedIds_cons] at hn
    have hf : f ≠ Fault.commit := hall (f, rq) (List.mem_cons_self _ _)
    have hrest : ∀ x ∈ rest, x.1 ≠ Fault.commit :=
      fun x hx => hall x (List.mem_cons_of_mem _ hx)
    rcases List.mem_append.1 hn with hn | hn
    · obtain ⟨h1, h2⟩ := hp1 hf n hn
      exact ⟨h1, le_trans h2 hm2⟩
    · obtain ⟨h1, h2⟩ := hp2 hrest n hn
      exact ⟨lt_of_le_of_lt hm1 h1, h2⟩

theorem createTable_keyed : (createTable none).Keyed := by
  simp [createTable, Store.Keyed, Store.ids]

/-- Keys in runs from the new table: in every store reached by a run of
requests, keys are pairwise distinct; and the id of a POST answered 201 there
differs from the key of every row, is the same for every body and fault (so it
is fixed by the store and not by the request), and, when no commit failed
during the run, occurs among the ids of no earlier POST answered 201, deleted
or not. -/
theorem ids_fresh_and_distinct (env : Env) (tr : List (Fault × Request)) :
    ((serve env (createTable none) tr).2.rows.map Row.id).Nodup ∧
    ∀ (f : Fault) (body : String) (t : Task),
      (createTask env f (serve env (createTable none) tr).2 body).1 = ⟨201, Task.toJson t⟩ →
        (∀ r ∈ (serve env (createTable none) tr).2.rows, r.id ≠ t.ID) ∧
        ((∀ x ∈ tr, x.1 ≠ Fault.commit) →
          t.ID ∉ postedIds (serve env (createTable none) tr).1) ∧
        ∀ (f' : Fault) (body' : String) (t' : Task),
          (createTask env f' (serve env (createTable none) tr).2 body').1 =
            ⟨201, Task.toJson t'⟩ → t'.ID = t.ID := by
  obtain ⟨hk, _, hp⟩ := serve_keyed env tr (createTable none) createTable_keyed
  refine ⟨hk.1, ?_⟩
  intro f body t h201
  obtain ⟨p, _, hn, _, _⟩ := createTask_created env f _ body t h201
  obtain ⟨hseq, hfresh⟩ := newRowid_fresh _ _ hn
  refine ⟨?_, ?_, ?_⟩
  · intro r hr
    exact ne_of_lt (hfresh r hr)
  · intro hcommit hmem
    have := (hp hcommit _ hmem).2
    omega
  · intro f' body' t' h'
    obtain ⟨_, _, hn', _, _⟩ := createTask_created env f' _ body' t' h'
    rw [hn] at hn'
    injection hn' with hn'
    exact hn'.symm

theorem ids_fresh_and_distinct_witness :
    (createTask sampleEnv Fault.none (serve sampleEnv (createTable none)
      [(Fault.none, Request.post "milk"), (Fault.none, Request.delete "1")]).2 "milk99").1 =
      ⟨201, Task.toJson { milk with ID := 2 }⟩ ∧
    ((serve sampleEnv (createTable none)
      [(Fault.none, Request.post "milk"), (Fault.none, Request.delete "1")]).2.rows.map
        Row.id).Nodup ∧
    (2 : Int) ∉ postedIds (serve sampleEnv (createTable none)
      [(Fault.none, Request.post "milk"), (Fault.none, Request.delete "1")]).1 :=
  ⟨rfl,
   (ids_fresh_and_distinct sampleEnv
      [(Fault.none, Request.post "milk"), (Fault.none, Request.delete "1")]).1,
   ((ids_fresh_and_distinct sampleEnv
      [(Fault.none, Request.post "milk"), (Fault.none, Request.delete "1")]).2
      Fault.none "milk99" { milk with ID := 2 } rfl).2.1 (by simp)⟩

/-- C8, evaluated: from the new table, a POST whose commit fails is answered
201 with id 1; the POST that follows, with no fault, is answered 201 with
id 1 again, an id already given out by the earlier POST. -/
theorem id_reused_after_commit_fault :
    (serve sampleEnv (createTable none) [(Fault.commit, Request.post "milk")]).2 =
      createTable none ∧
    postedIds (serve sampleEnv (createTable none) [(Fault.commit, Request.post "milk")]).1
      = [1] ∧
    (createTask sampleEnv Fault.none
      (serve sampleEnv (createTable none) [(Fault.commit, Request.post "milk")]).2 "milk99").1 =
      ⟨201, Task.toJson { milk with ID := 1 }⟩ ∧
    postedIds (serve sampleEnv (createTable none)
      [(Fault.commit, Request.post "milk"), (Fault.none, Request.post "milk99")]).1 = [1, 1] :=
  ⟨rfl, rfl, rfl, rfl⟩

end TaskAPI
